import Mathlib

/-!
# Verification of the tempstore Engine

A shallow embedding of the `tempstore` repository (marcv81/tempstore):

* `datastore.py` : a content-addressed blob store on a flat directory,
  modelled as a list of directory entries (`Blob`).
* `database.py`  : a SQLite-backed metadata index of projects, versions and
  files, modelled as lists of rows (`Database`).
* `engine.py`    : the orchestration of the two (`upload`, `download`,
  `cleanup`) and the expiry formatter.

Python integers are `Int`/`Nat`; byte streams are `List Nat`; errors raised
as `DatabaseException`/`DatastoreException` become `Except String`, carrying
the source's message strings.  SHA-256 is implemented in full (FIPS 180-4)
so that the content-addressing of `datastore.create_blob` is computed, not
assumed; the hex digests of `"foo"` and `""` are checked against the values
pinned in `tests/unit/test_datastore.py`.
-/

deriving instance DecidableEq for Except

namespace Tempstore

/-! ## SHA-256 (the `hashlib.sha256` / `binascii.hexlify` pipeline of
`datastore.sha256_sum`).  Words are `Nat` reduced mod `2^32`. -/

def MOD32 : Nat := 4294967296

/-- Rotation of a 32-bit word to the right by `n` bits (on `Nat`,
truncated back below `2^32`). -/
def rotr (x n : Nat) : Nat := ((x >>> n) ||| (x <<< (32 - n))) % MOD32

/-- The sixty-four round constants of FIPS 180-4 (fractional parts of the
cube roots of the first primes), written in decimal. -/
def K64 : List Nat :=
  [1116352408, 1899447441, 3049323471, 3921009573,
   961987163, 1508970993, 2453635748, 2870763221,
   3624381080, 310598401, 607225278, 1426881987,
   1925078388, 2162078206, 2614888103, 3248222580,
   3835390401, 4022224774, 264347078, 604807628,
   770255983, 1249150122, 1555081692, 1996064986,
   2554220882, 2821834349, 2952996808, 3210313671,
   3336571891, 3584528711, 113926993, 338241895,
   666307205, 773529912, 1294757372, 1396182291,
   1695183700, 1986661051, 2177026350, 2456956037,
   2730485921, 2820302411, 3259730800, 3345764771,
   3516065817, 3600352804, 4094571909, 275423344,
   430227734, 506948616, 659060556, 883997877,
   958139571, 1322822218, 1537002063, 1747873779,
   1955562222, 2024104815, 2227730452, 2361852424,
   2428436474, 2756734187, 3204031479, 3329325298]

/-- The eight working variables of the compression function. -/
structure Hash8 where
  a : Nat
  b : Nat
  c : Nat
  d : Nat
  e : Nat
  f : Nat
  g : Nat
  h : Nat
deriving DecidableEq, Repr

/-- The initial hash state of FIPS 180-4, in decimal. -/
def H0 : Hash8 :=
  ⟨1779033703, 3144134277, 1013904242, 2773480762,
   1359893119, 2600822924, 528734635, 1541459225⟩

/-- Big-endian 32-bit word from four bytes. -/
def word_be (b0 b1 b2 b3 : Nat) : Nat :=
  ((b0 % 256) <<< 24) ||| ((b1 % 256) <<< 16) ||| ((b2 % 256) <<< 8) ||| (b3 % 256)

/-- Groups a byte list into big-endian 32-bit words. -/
def words_of_bytes : List Nat → List Nat
  | b0 :: b1 :: b2 :: b3 :: rest => word_be b0 b1 b2 b3 :: words_of_bytes rest
  | _ => []

/-- One step of message-schedule extension: appends
`w[i-16] + s0(w[i-15]) + w[i-7] + s1(w[i-2])`. -/
def extend_step (acc : List Nat) : List Nat :=
  let i := acc.length
  let w15 := acc.getD (i - 15) 0
  let w2 := acc.getD (i - 2) 0
  let w16 := acc.getD (i - 16) 0
  let w7 := acc.getD (i - 7) 0
  let s0 := (rotr w15 7) ^^^ (rotr w15 18) ^^^ (w15 >>> 3)
  let s1 := (rotr w2 17) ^^^ (rotr w2 19) ^^^ (w2 >>> 10)
  acc ++ [(w16 + s0 + w7 + s1) % MOD32]

/-- Extends the 16-word schedule by `n` further words. -/
def extend_schedule : Nat → List Nat → List Nat
  | 0, acc => acc
  | n + 1, acc => extend_schedule n (extend_step acc)

/-- One SHA-256 round, consuming a `(k, w)` pair. -/
def sha_round (st : Hash8) (kw : Nat × Nat) : Hash8 :=
  let S1 := (rotr st.e 6) ^^^ (rotr st.e 11) ^^^ (rotr st.e 25)
  let ch := (st.e &&& st.f) ^^^ ((st.e ^^^ 0xffffffff) &&& st.g)
  let t1 := (st.h + S1 + ch + kw.1 + kw.2) % MOD32
  let S0 := (rotr st.a 2) ^^^ (rotr st.a 13) ^^^ (rotr st.a 22)
  let maj := (st.a &&& st.b) ^^^ (st.a &&& st.c) ^^^ (st.b &&& st.c)
  let t2 := (S0 + maj) % MOD32
  ⟨(t1 + t2) % MOD32, st.a, st.b, st.c, (st.d + t1) % MOD32, st.e, st.f, st.g⟩

/-- Processes one 64-byte block. -/
def process_block (st : Hash8) (block : List Nat) : Hash8 :=
  let sched := extend_schedule 48 (words_of_bytes block)
  let r := (K64.zip sched).foldl sha_round st
  ⟨(st.a + r.a) % MOD32, (st.b + r.b) % MOD32, (st.c + r.c) % MOD32,
   (st.d + r.d) % MOD32, (st.e + r.e) % MOD32, (st.f + r.f) % MOD32,
   (st.g + r.g) % MOD32, (st.h + r.h) % MOD32⟩

/-- Splits a list into 64-byte blocks; the fuel is the list length. -/
def to_blocks : Nat → List Nat → List (List Nat)
  | 0, _ => []
  | _ + 1, [] => []
  | fuel + 1, l => l.take 64 :: to_blocks fuel (l.drop 64)

/-- Message length as eight big-endian bytes. -/
def len_bytes (n : Nat) : List Nat :=
  [(n >>> 56) % 256, (n >>> 48) % 256, (n >>> 40) % 256, (n >>> 32) % 256,
   (n >>> 24) % 256, (n >>> 16) % 256, (n >>> 8) % 256, n % 256]

/-- SHA-256 padding: `0x80`, zeros to 56 mod 64, then the bit length. -/
def sha_pad (msg : List Nat) : List Nat :=
  msg ++ 128 :: List.replicate ((119 - msg.length % 64) % 64) 0
      ++ len_bytes (8 * msg.length)

/-- The eight words of the SHA-256 digest of a byte sequence. -/
def sha256_words (msg : List Nat) : List Nat :=
  let padded := sha_pad msg
  let final := (to_blocks padded.length padded).foldl process_block H0
  [final.a, final.b, final.c, final.d, final.e, final.f, final.g, final.h]

/-- Lower-case hex digit of a nibble. -/
def hexDigit : Nat → Char
  | 0 => '0' | 1 => '1' | 2 => '2' | 3 => '3' | 4 => '4'
  | 5 => '5' | 6 => '6' | 7 => '7' | 8 => '8' | 9 => '9'
  | 10 => 'a' | 11 => 'b' | 12 => 'c' | 13 => 'd' | 14 => 'e'
  | _ => 'f'

/-- Eight hex characters of a 32-bit word, most significant nibble first. -/
def word_hex (w : Nat) : List Char :=
  [hexDigit ((w >>> 28) % 16), hexDigit ((w >>> 24) % 16),
   hexDigit ((w >>> 20) % 16), hexDigit ((w >>> 16) % 16),
   hexDigit ((w >>> 12) % 16), hexDigit ((w >>> 8) % 16),
   hexDigit ((w >>> 4) % 16), hexDigit (w % 16)]

/-- `datastore.sha256_sum`: the hex digest of a byte stream.  The source
hashes the stream through a 64 KiB buffer; buffering does not change the
bytes hashed, so the model hashes the byte list directly. -/
def sha256_sum (msg : List Nat) : String :=
  ⟨(sha256_words msg).flatMap word_hex⟩

/-! ## Validators (`database.validate_name`, `validate_sha256`;
`datastore.validate_sha256` is textually identical).

Both validators call `re.compile(pattern).search(s)` with an
`^...$`-anchored pattern.  In Python, `$` matches at the end of the string
*or just before a newline at the end of the string*, so the anchored
search succeeds exactly when the whole string, minus at most one final
`'\n'`, is a non-empty run of characters of the class. -/

/-- Membership in the character class `[0-9a-zA-Z_.-]`. -/
def isNameChar (c : Char) : Bool :=
  ('0' ≤ c && c ≤ '9') || ('a' ≤ c && c ≤ 'z') || ('A' ≤ c && c ≤ 'Z')
    || c == '_' || c == '.' || c == '-'

/-- Membership in the character class `[0-9a-f]`. -/
def isHexChar (c : Char) : Bool :=
  ('0' ≤ c && c ≤ '9') || ('a' ≤ c && c ≤ 'f')

/-- The string minus a single trailing newline, if any: the region an
anchored Python `search` must cover. -/
def searchBody (s : String) : List Char :=
  if s.data.getLast? = some '\n' then s.data.dropLast else s.data

/-- Python `re.search('^[0-9a-zA-Z_.-]+$', s)` as a Boolean. -/
def nameSearch (s : String) : Bool :=
  !(searchBody s).isEmpty && (searchBody s).all isNameChar

/-- Python `re.search('^[0-9a-f]{64}$', s)` as a Boolean. -/
def sha256Search (s : String) : Bool :=
  (searchBody s).length == 64 && (searchBody s).all isHexChar

/-- `database.validate_name`. -/
def validate_name (name : String) : Except String Unit :=
  if name = "." || name = ".." then .error "Invalid name"
  else if nameSearch name then .ok () else .error "Invalid name"

/-- `database.validate_sha256` and `datastore.validate_sha256` (the two
definitions are textually identical; the exception message is the same). -/
def validate_sha256 (sha256 : String) : Except String Unit :=
  if sha256Search sha256 then .ok () else .error "Invalid SHA-256 hash"

/-! ## Metadata index (`database.py`)

The three tables of `Database.create_schema`, with their `INTEGER PRIMARY
KEY` columns modelled by per-table counters that only grow.  Every public
method validates its string inputs first and raises `DatabaseException`
(here: `Except.error`) with the source's message. -/

structure ProjectRow where
  id : Nat
  name : String
deriving DecidableEq, Repr

structure VersionRow where
  id : Nat
  project_id : Nat
  name : String
  timestamp : Int
  star : Bool
deriving DecidableEq, Repr

structure FileRow where
  id : Nat
  version_id : Nat
  name : String
  sha256 : String
deriving DecidableEq, Repr

structure Database where
  projects : List ProjectRow
  versions : List VersionRow
  files : List FileRow
  nextProjectId : Nat
  nextVersionId : Nat
  nextFileId : Nat
deriving DecidableEq, Repr

/-- The freshly created index (`Database.create` / `create_schema`). -/
def emptyDb : Database := ⟨[], [], [], 1, 1, 1⟩

/-- `INSERT OR IGNORE INTO projects(name) VALUES(?)`: inserts a fresh row
unless a project of that name exists (unique constraint on `name`). -/
def upsertProject (db : Database) (p : String) : Database :=
  if db.projects.any (fun pr => pr.name == p) then db
  else { db with
    projects := db.projects ++ [{ id := db.nextProjectId, name := p }],
    nextProjectId := db.nextProjectId + 1 }

/-- `INSERT OR IGNORE INTO versions(project_id, name, timestamp)`: inserts
a fresh row (with `star` defaulting to false) unless a version with the
same `(project_id, name)` exists (unique constraint). -/
def upsertVersion (db : Database) (pid : Nat) (v : String) (timestamp : Int) :
    Database :=
  if db.versions.any (fun vr => vr.project_id == pid && vr.name == v) then db
  else { db with
    versions := db.versions ++
      [{ id := db.nextVersionId, project_id := pid, name := v,
         timestamp := timestamp, star := false }],
    nextVersionId := db.nextVersionId + 1 }

/-- The transaction body of `Database.create_file`: upsert the project,
`SELECT` its id (the source `assert`s exactly one row), upsert the
version, `SELECT` its id, then `INSERT` the file row.  A violation of the
unique `(version_id, name)` constraint raises `sqlite3.IntegrityError`,
the source issues `ROLLBACK` and re-raises `DatabaseException('Unable to
create file')`; the rollback is embedded by returning `Except.error`, so
the caller's `Database` value is unchanged. -/
def create_file_main (db : Database) (project_name version_name file_name
    sha256 : String) (now age : Int) : Except String Database :=
  let timestamp := now - age
  let dbP := upsertProject db project_name
  match dbP.projects.filter (fun pr => pr.name == project_name) with
  | [pr] =>
    let dbV := upsertVersion dbP pr.id version_name timestamp
    match dbV.versions.filter
        (fun vr => vr.project_id == pr.id && vr.name == version_name) with
    | [vr] =>
      if dbV.files.any
          (fun fr => fr.version_id == vr.id && fr.name == file_name) then
        .error "Unable to create file"
      else
        .ok { dbV with
          files := dbV.files ++
            [{ id := dbV.nextFileId, version_id := vr.id,
               name := file_name, sha256 := sha256 }],
          nextFileId := dbV.nextFileId + 1 }
    | _ => .error "AssertionError"
  | _ => .error "AssertionError"

/-- `Database.create_file`: validates the four parameters in source order,
then runs the transaction. -/
def create_file (db : Database) (project_name version_name file_name
    sha256 : String) (now age : Int) : Except String Database :=
  match validate_name project_name with
  | .error e => .error e
  | .ok _ =>
    match validate_name version_name with
    | .error e => .error e
    | .ok _ =>
      match validate_name file_name with
      | .error e => .error e
      | .ok _ =>
        match validate_sha256 sha256 with
        | .error e => .error e
        | .ok _ =>
          create_file_main db project_name version_name file_name
            sha256 now age

/-- The triple join of `Database.retrieve_file_sha256`:
`projects INNER JOIN versions ON projects.id = versions.project_id
INNER JOIN files ON versions.id = files.version_id` filtered by the three
names, projected to `files.sha256`. -/
def fileJoin (db : Database) (p v f : String) : List String :=
  (db.projects.filter (fun pr => pr.name == p)).flatMap fun pr =>
    (db.versions.filter
        (fun vr => vr.project_id == pr.id && vr.name == v)).flatMap fun vr =>
      (db.files.filter
          (fun fr => fr.version_id == vr.id && fr.name == f)).map
        fun fr => fr.sha256

/-- `Database.retrieve_file_sha256`: validates the names, then fails with
`'File not found'` unless the join returns exactly one row. -/
def retrieve_file_sha256 (db : Database) (project_name version_name
    file_name : String) : Except String String :=
  match validate_name project_name with
  | .error e => .error e
  | .ok _ =>
    match validate_name version_name with
    | .error e => .error e
    | .ok _ =>
      match validate_name file_name with
      | .error e => .error e
      | .ok _ =>
        match fileJoin db project_name version_name file_name with
        | [sha256] => .ok sha256
        | _ => .error "File not found"

/-- `Database.retrieve_projects`: project names sorted ascending. -/
def retrieve_projects (db : Database) : List String :=
  (db.projects.map (fun pr => pr.name)).mergeSort (fun a b => a ≤ b)

/-- `Database.retrieve_versions`: resolves the project (failing with
`'Project not found'` unless the `SELECT` returns exactly one row), then
returns its versions sorted by descending timestamp. -/
def retrieve_versions (db : Database) (project_name : String) :
    Except String (List VersionRow) :=
  match validate_name project_name with
  | .error e => .error e
  | .ok _ =>
    match db.projects.filter (fun pr => pr.name == project_name) with
    | [pr] =>
      .ok ((db.versions.filter (fun vr => vr.project_id == pr.id)).mergeSort
        (fun a b => a.timestamp ≥ b.timestamp))
    | _ => .error "Project not found"

/-- The join of `versions` with `projects` used by `retrieve_files` and
`update_star` to resolve a `(project name, version name)` pair. -/
def versionJoin (db : Database) (p v : String) : List VersionRow :=
  db.versions.flatMap fun vr =>
    (db.projects.filter
        (fun pr => pr.id == vr.project_id && pr.name == p)).flatMap fun _ =>
      if vr.name == v then [vr] else []

/-- `Database.retrieve_files`: resolves the version (failing with
`'Version not found'` unless exactly one row), then returns its files
sorted ascending by name. -/
def retrieve_files (db : Database) (project_name version_name : String) :
    Except String (List FileRow) :=
  match validate_name project_name with
  | .error e => .error e
  | .ok _ =>
    match validate_name version_name with
    | .error e => .error e
    | .ok _ =>
      match versionJoin db project_name version_name with
      | [vr] =>
        .ok ((db.files.filter (fun fr => fr.version_id == vr.id)).mergeSort
          (fun a b => a.name ≤ b.name))
      | _ => .error "Version not found"

/-- `SELECT DISTINCT sha256 FROM files` (`Database.retrieve_sha256s`). -/
def retrieve_sha256s (db : Database) : List String :=
  (db.files.map (fun fr => fr.sha256)).dedup

/-- `Database.update_star`: validates the names (the strict-Boolean
`validate_star` check is subsumed by the `Bool` type here), resolves the
version, and sets its star flag. -/
def update_star (db : Database) (project_name version_name : String)
    (star : Bool) : Except String Database :=
  match validate_name project_name with
  | .error e => .error e
  | .ok _ =>
    match validate_name version_name with
    | .error e => .error e
    | .ok _ =>
      match versionJoin db project_name version_name with
      | [vr] =>
        .ok { db with
          versions := db.versions.map fun w =>
            if w.id == vr.id then { w with star := star } else w }
      | _ => .error "Version not found"

/-- `Database.delete_obsolete_versions`: one `DELETE FROM versions WHERE
star=? AND timestamp<=?` with parameters `False` and `now - age`; the
schema's `ON DELETE CASCADE` removes the file rows of deleted versions. -/
def delete_obsolete_versions (db : Database) (now age : Int) : Database :=
  let timestamp := now - age
  let deleted := db.versions.filter
    (fun vr => vr.star == false && decide (vr.timestamp ≤ timestamp))
  { db with
    versions := db.versions.filter
      (fun vr => !(vr.star == false && decide (vr.timestamp ≤ timestamp))),
    files := db.files.filter
      (fun fr => !(deleted.any (fun vr => vr.id == fr.version_id))) }

/-! ## Blob store (`datastore.py`)

The flat datastore directory is a list of entries.  `stat` is the mtime
`os.stat` would report, or `none` when the entry has vanished between
`os.listdir` and `os.stat` so that `os.stat` raises (the fault mode the
spec discusses for the GC scan). -/

structure Blob where
  name : String
  stat : Option Int
  content : List Nat
deriving DecidableEq, Repr

/-- `Datastore.create_blob`: hashes the stream, writes it to a
uniquely-named temp file (transient within the call), sets the temp
file's mtime to `now - age`, and atomically `os.replace`s it over the
file named by the digest.  Returns the digest and the new directory
contents; any previous entry of that name is replaced. -/
def create_blob (ds : List Blob) (stream : List Nat) (now age : Int) :
    String × List Blob :=
  let sha256 := sha256_sum stream
  (sha256,
   ds.filter (fun b => !(b.name == sha256)) ++
     [{ name := sha256, stat := some (now - age), content := stream }])

/-- `Datastore.retrieve_blob`: validates the hash, then opens the blob
file, mapping `FileNotFoundError` to `'Blob not found'`. -/
def retrieve_blob (ds : List Blob) (sha256 : String) :
    Except String (List Nat) :=
  match validate_sha256 sha256 with
  | .error e => .error e
  | .ok _ =>
    match ds.find? (fun b => b.name == sha256) with
    | some b => .ok b.content
    | none => .error "Blob not found"

/-- `Datastore.delete_unreferenced_blobs`: iterates over the directory in
order; each entry is `os.stat`ed (skipped while its mtime exceeds
`now - 60`), then unlinked unless its name is in `sha256s`.  The loop has
no per-entry exception handling, so a failing `os.stat` (entry gone,
`stat = none`) propagates: the returned flag records that the scan
aborted, and the failing entry and all later entries are left in place,
unexamined. -/
def delete_unreferenced_blobs : List Blob → List String → Int →
    List Blob × Bool
  | [], _, _ => ([], false)
  | b :: rest, sha256s, now =>
    match b.stat with
    | none => (b :: rest, true)
    | some mtime =>
      if mtime > now - 60 then
        let r := delete_unreferenced_blobs rest sha256s now
        (b :: r.1, r.2)
      else if sha256s.contains b.name then
        let r := delete_unreferenced_blobs rest sha256s now
        (b :: r.1, r.2)
      else
        delete_unreferenced_blobs rest sha256s now

/-- The entry-retention predicate of a completed, fault-free GC scan: an
entry survives iff its mtime is within the grace window or its name is in
the reference list. -/
def blobKept (now : Int) (sha256s : List String) (b : Blob) : Bool :=
  match b.stat with
  | none => true
  | some mtime => decide (mtime > now - 60) || sha256s.contains b.name

/-! ## Engine (`engine.py`)

The Engine couples one `Database` and one datastore directory.  The
source reads the clock inside each substrate call; a single `now`
parameter stands for the (shared) current time of one Engine call. -/

/-- `Engine.upload`: writes the stream to a datastore blob, then creates
the file row.  The blob write happens first, so it persists even when
`create_file` fails (including on invalid names, which `create_file`
checks only after the blob exists). -/
def upload (db : Database) (ds : List Blob) (project_name version_name
    file_name : String) (stream : List Nat) (now age : Int) :
    Database × List Blob × Except String Unit :=
  let r := create_blob ds stream now age
  match create_file db project_name version_name file_name r.1 now age with
  | .ok db' => (db', r.2, .ok ())
  | .error e => (db, r.2, .error e)

/-- `Engine.download`: resolves the hash in the database, then opens the
blob. -/
def download (db : Database) (ds : List Blob) (project_name version_name
    file_name : String) : Except String (List Nat) :=
  match retrieve_file_sha256 db project_name version_name file_name with
  | .ok sha256 => retrieve_blob ds sha256
  | .error e => .error e

/-- `Engine.cleanup`: deletes obsolete versions, snapshots the remaining
hashes, then garbage-collects the datastore against that snapshot. -/
def cleanup (db : Database) (ds : List Blob) (obsolete_age now : Int) :
    Database × List Blob × Bool :=
  let db' := delete_obsolete_versions db now obsolete_age
  let sha256s := retrieve_sha256s db'
  let r := delete_unreferenced_blobs ds sha256s now
  (db', r.1, r.2)

/-! ## Expiry formatter (`engine.format_expiry`)

Python `//` is floor division, embedded as `Int.fdiv`. -/

/-- `format_unit`: count, space, unit name, `'s'` when the count exceeds
one. -/
def format_unit (expiry : Int) (unit : String) : String :=
  let plural := if expiry > 1 then "s" else ""
  toString expiry ++ " " ++ unit ++ plural

/-- `format_approximate`: the round-half-up cascade of the source,
with its sequence of early returns written as nested conditionals. -/
def format_approximate (expiry : Int) : String :=
  if expiry ≥ 60 then
    let e1 := (expiry + 30).fdiv 60
    if e1 ≥ 60 then
      let e2 := (e1 + 30).fdiv 60
      if e2 ≥ 24 then format_unit ((e2 + 12).fdiv 24) "day"
      else format_unit e2 "hour"
    else format_unit e1 "minute"
  else format_unit expiry "second"

/-- `format_expiry`. -/
def format_expiry (expiry : Int) : String :=
  if expiry ≤ 0 then "expired" else "expires in " ++ format_approximate expiry

/-! ## Connection lifecycle (`Database.database_context_manager`)

The decorator wraps each public method in the generator context manager
`open(); yield; close()` built with `contextlib.contextmanager`.  Per
Python semantics, when the wrapped method raises, the exception is thrown
into the generator at the `yield`; the generator has no `try/finally`, so
the `close()` after the `yield` is *not* executed and the exception
propagates.  `database_context_manager_run` records, for a method body
with the given outcome, whether `close()` ran. -/

def database_context_manager_run (method : Except String α) :
    Except String α × Bool :=
  match method with
  | .ok a => (.ok a, true)
  | .error e => (.error e, false)

/-! ## HTTP surfacing (`webapp.BaseApp.route`)

Once a URL is routed to the download endpoint, `route` returns 404 only
for `werkzeug.exceptions.NotFound` raised by URL matching; any exception
escaping the Engine call is caught by the generic handler and surfaced as
status 500. -/

def download_http_status (db : Database) (ds : List Blob)
    (project_name version_name file_name : String) : Nat :=
  match download db ds project_name version_name file_name with
  | .ok _ => 200
  | .error _ => 500

/-! ## Claim-side definitions and witness constants -/

/-- State-threading view of `create_file`: the index a caller observes
after the call.  A failed call executes `ROLLBACK`, leaving the index it
was given. -/
def create_file_state (db : Database) (p v f sha : String) (now age : Int) :
    Database × Except String Unit :=
  match create_file db p v f sha now age with
  | .ok db2 => (db2, .ok ())
  | .error e => (db, .error e)

/-- The index after `create_file(emptyDb, "ProjectX", "1.0", "fileA", H1)`
with `H1` the first sample hash of `tests/unit/test_database.py`. -/
def SHA256_TEST1 : String :=
  "e6f96beba7edddcbe06e2b526419ab151300fc271ee13f42eb11ee45f74dd152"

def dbProjectX : Database :=
  ⟨[⟨1, "ProjectX"⟩], [⟨1, 1, "1.0", 100, false⟩],
   [⟨1, 1, "fileA", SHA256_TEST1⟩], 2, 2, 2⟩

/-- The unit formatter exactly as the spec words it: singular iff the
count is 1. -/
def claim_unit (count : Int) (unit : String) : String :=
  toString count ++ " " ++ unit ++ (if count = 1 then "" else "s")

/-- `format_expiry` as claim C9 words it: `"expired"` for
`seconds ≤ 0`, otherwise the round-half-up cascade (divide by 60 with
`+30` when the count reaches 60, again with `+30` when it reaches 60,
divide by 24 with `+12` when it reaches 24), pluralizing with singular
exactly when the final count is 1.  Stated from the spec's words, to be
compared with `format_expiry` translated from the source. -/
def format_expiry_claim (seconds : Int) : String :=
  if seconds ≤ 0 then "expired"
  else "expires in " ++
    (if seconds < 60 then claim_unit seconds "second"
     else
       let m := (seconds + 30).fdiv 60
       if m < 60 then claim_unit m "minute"
       else
         let hr := (m + 30).fdiv 60
         if hr < 24 then claim_unit hr "hour"
         else claim_unit ((hr + 12).fdiv 24) "day")

/-- The amended invalid-name condition of claim C2: a character outside
`[0-9a-zA-Z_.-]` at a position other than a single trailing newline
(`searchBody`), or the literal `.` or `..`. -/
def claimInvalidName (s : String) : Prop :=
  s = "." ∨ s = ".." ∨ ∃ c ∈ searchBody s, isNameChar c = false

instance (s : String) : Decidable (claimInvalidName s) := by
  unfold claimInvalidName
  infer_instance

/-! ## Helper lemmas -/

/-- Digest of `b"foo"`, as pinned in `tests/unit/test_datastore.py`. -/
theorem sha256_sum_foo :
    sha256_sum [102, 111, 111]
      = "2c26b46b68ffc68ff99b453c1d30413413422d706483bfa0f98a5e886266e7ae" := by
  decide

/-- Digest of `b""`, as pinned in `tests/unit/test_datastore.py`. -/
theorem sha256_sum_empty :
    sha256_sum []
      = "e3b0c44298fc1c149afbf4c8996fb92427ae41e4649b934ca495991b7852b855" := by
  decide


theorem find?_append_left_none {l₁ l₂ : List α} {p : α → Bool}
    (h : ∀ x ∈ l₁, p x = false) :
    (l₁ ++ l₂).find? p = l₂.find? p := by
  induction l₁ with
  | nil => rfl
  | cons a l ih =>
    rw [List.cons_append, List.find?_cons_of_neg]
    · exact ih fun x hx => h x (List.mem_cons_of_mem _ hx)
    · simp [h a (List.mem_cons_self a l)]

/-- Every hex digit produced by `hexDigit` is in the class `[0-9a-f]`. -/
theorem isHexChar_hexDigit (n : Nat) : isHexChar (hexDigit n) = true :=
  match n with
  | 0 => rfl | 1 => rfl | 2 => rfl | 3 => rfl | 4 => rfl | 5 => rfl
  | 6 => rfl | 7 => rfl | 8 => rfl | 9 => rfl | 10 => rfl | 11 => rfl
  | 12 => rfl | 13 => rfl | 14 => rfl | _ + 15 => rfl

theorem hexDigit_ne_newline (n : Nat) : hexDigit n ≠ '\n' :=
  match n with
  | 0 => by decide | 1 => by decide | 2 => by decide | 3 => by decide
  | 4 => by decide | 5 => by decide | 6 => by decide | 7 => by decide
  | 8 => by decide | 9 => by decide | 10 => by decide | 11 => by decide
  | 12 => by decide | 13 => by decide | 14 => by decide
  | m + 15 => by
      have h15 : hexDigit (m + 15) = 'f' := rfl
      rw [h15]
      decide

theorem word_hex_length (w : Nat) : (word_hex w).length = 8 := rfl

theorem isHexChar_of_mem_word_hex {w : Nat} {c : Char}
    (h : c ∈ word_hex w) : isHexChar c = true := by
  simp only [word_hex, List.mem_cons, List.not_mem_nil, or_false] at h
  rcases h with h | h | h | h | h | h | h | h <;> (subst h; exact isHexChar_hexDigit _)

theorem sha256_sum_data (msg : List Nat) :
    (sha256_sum msg).data = (sha256_words msg).flatMap word_hex := rfl

theorem sha256_words_length (msg : List Nat) : (sha256_words msg).length = 8 := rfl

theorem sha256_sum_data_length (msg : List Nat) :
    (sha256_sum msg).data.length = 64 := by
  rw [sha256_sum_data]
  unfold sha256_words
  simp [word_hex]

theorem isHexChar_of_mem_sha256_sum {msg : List Nat} {c : Char}
    (h : c ∈ (sha256_sum msg).data) : isHexChar c = true := by
  rw [sha256_sum_data, List.mem_flatMap] at h
  obtain ⟨w, _, hc⟩ := h
  exact isHexChar_of_mem_word_hex hc

/-- The digest returned by `sha256_sum` passes the `Hex64` validator. -/
theorem sha256Search_sha256_sum (msg : List Nat) :
    sha256Search (sha256_sum msg) = true := by
  have hbody : searchBody (sha256_sum msg) = (sha256_sum msg).data := by
    unfold searchBody
    rw [if_neg]
    intro h
    have hmem := List.mem_of_getLast?_eq_some h
    have := isHexChar_of_mem_sha256_sum hmem
    simp [isHexChar] at this
  unfold sha256Search
  rw [hbody, sha256_sum_data_length]
  simp only [beq_self_eq_true, Bool.true_and, List.all_eq_true]
  intro c hc
  exact isHexChar_of_mem_sha256_sum hc

theorem validate_sha256_sha256_sum (msg : List Nat) :
    validate_sha256 (sha256_sum msg) = .ok () := by
  unfold validate_sha256
  rw [if_pos (sha256Search_sha256_sum msg)]

/-- A string accepted by the `Hex64` validator contains no `'-'`. -/
theorem no_dash_of_sha256Search {s : String} (hs : sha256Search s = true) :
    '-' ∉ s.data := by
  intro hmem
  unfold sha256Search at hs
  simp only [Bool.and_eq_true, List.all_eq_true] at hs
  have hsplit : s.data = searchBody s ∨ s.data = searchBody s ++ ['\n'] := by
    unfold searchBody
    split_ifs with h
    · right
      obtain ⟨ys, hys⟩ := List.getLast?_eq_some_iff.mp h
      rw [hys, List.dropLast_concat]
    · left
      rfl
  rcases hsplit with h | h
  · rw [h] at hmem
    have := hs.2 _ hmem
    simp [isHexChar] at this
  · rw [h, List.mem_append] at hmem
    rcases hmem with hmem | hmem
    · have := hs.2 _ hmem
      simp [isHexChar] at this
    · simp at hmem

/-! ## The metadata-index transaction lemmas -/


theorem upsertProject_versions (db : Database) (p : String) :
    (upsertProject db p).versions = db.versions := by
  unfold upsertProject; split <;> rfl

theorem upsertProject_files (db : Database) (p : String) :
    (upsertProject db p).files = db.files := by
  unfold upsertProject; split <;> rfl

theorem upsertVersion_projects (db : Database) (pid : Nat) (v : String) (ts : Int) :
    (upsertVersion db pid v ts).projects = db.projects := by
  unfold upsertVersion; split <;> rfl

theorem upsertVersion_files (db : Database) (pid : Nat) (v : String) (ts : Int) :
    (upsertVersion db pid v ts).files = db.files := by
  unfold upsertVersion; split <;> rfl

theorem create_file_ok_shape {db db' : Database} {p v f sha : String}
    {now age : Int}
    (hok : create_file db p v f sha now age = .ok db') :
    validate_name p = .ok () ∧ validate_name v = .ok () ∧
    validate_name f = .ok () ∧ validate_sha256 sha = .ok () ∧
    ∃ pr vr fid,
      db'.projects.filter (fun x => x.name == p) = [pr] ∧
      db'.versions.filter (fun x => x.project_id == pr.id && x.name == v) = [vr] ∧
      db'.files = db.files ++
        [{ id := fid, version_id := vr.id, name := f, sha256 := sha }] ∧
      db.files.filter (fun x => x.version_id == vr.id && x.name == f) = [] := by
  unfold create_file at hok
  split at hok
  case h_1 => exact Except.noConfusion hok
  rename_i u1 hp
  split at hok
  case h_1 => exact Except.noConfusion hok
  rename_i u2 hv
  split at hok
  case h_1 => exact Except.noConfusion hok
  rename_i u3 hf
  split at hok
  case h_1 => exact Except.noConfusion hok
  rename_i u4 hsha
  refine ⟨hp, hv, hf, hsha, ?_⟩
  simp only [create_file_main] at hok
  split at hok
  case h_2 => exact Except.noConfusion hok
  rename_i pr hproj
  split at hok
  case h_2 => exact Except.noConfusion hok
  rename_i vr hver
  split at hok
  case isTrue => exact Except.noConfusion hok
  rename_i hguard
  injection hok with hok
  subst hok
  refine ⟨pr, vr, (upsertVersion (upsertProject db p) pr.id v (now - age)).nextFileId,
    ?_, ?_, ?_, ?_⟩
  · show ((upsertVersion (upsertProject db p) pr.id v (now - age)).projects.filter
      (fun x => x.name == p)) = [pr]
    rw [upsertVersion_projects]
    exact hproj
  · exact hver
  · show (upsertVersion (upsertProject db p) pr.id v (now - age)).files ++ _ = _
    rw [upsertVersion_files, upsertProject_files]
  · rw [List.filter_eq_nil_iff]
    intro x hx hpx
    apply hguard
    rw [List.any_eq_true]
    refine ⟨x, ?_, hpx⟩
    rw [upsertVersion_files, upsertProject_files]
    exact hx



theorem create_file_retrieve {db db' : Database} {p v f sha : String}
    {now age : Int}
    (hok : create_file db p v f sha now age = .ok db') :
    retrieve_file_sha256 db' p v f = .ok sha := by
  obtain ⟨hp, hv, hf, _, pr, vr, fid, hproj, hver, hfiles, hold⟩ :=
    create_file_ok_shape hok
  have hjoin : fileJoin db' p v f = [sha] := by
    unfold fileJoin
    rw [hproj]
    simp only [List.flatMap_cons, List.flatMap_nil, List.append_nil]
    rw [hver]
    simp only [List.flatMap_cons, List.flatMap_nil, List.append_nil]
    rw [hfiles, List.filter_append, hold]
    simp
  unfold retrieve_file_sha256
  rw [hp, hv, hf]
  show (match fileJoin db' p v f with
    | [sha256] => Except.ok sha256
    | _ => Except.error "File not found") = Except.ok sha
  rw [hjoin]

theorem create_file_duplicate {db db' : Database} {p v f sha : String}
    {now age : Int}
    (hok : create_file db p v f sha now age = .ok db')
    (sha2 : String) (now2 age2 : Int)
    (hsha2 : validate_sha256 sha2 = .ok ()) :
    create_file db' p v f sha2 now2 age2 = .error "Unable to create file" := by
  obtain ⟨hp, hv, hf, _, pr, vr, fid, hproj, hver, hfiles, hold⟩ :=
    create_file_ok_shape hok
  have hprmem := List.mem_filter.mp (hproj ▸ List.mem_singleton_self pr)
  have hup : upsertProject db' p = db' := by
    unfold upsertProject
    rw [if_pos (List.any_eq_true.mpr ⟨pr, hprmem.1, hprmem.2⟩)]
  have hvrmem := List.mem_filter.mp (hver ▸ List.mem_singleton_self vr)
  have hupv : upsertVersion db' pr.id v (now2 - age2) = db' := by
    unfold upsertVersion
    rw [if_pos (List.any_eq_true.mpr ⟨vr, hvrmem.1, hvrmem.2⟩)]
  have hany : db'.files.any
      (fun fr => fr.version_id == vr.id && fr.name == f) = true := by
    rw [hfiles]
    simp
  unfold create_file
  rw [hp, hv, hf, hsha2]
  show create_file_main db' p v f sha2 now2 age2 = _
  simp [create_file_main, hup, hproj, hupv, hver, hany]



theorem create_blob_eq (ds : List Blob) (stream : List Nat) (now age : Int) :
    create_blob ds stream now age =
      (sha256_sum stream,
       ds.filter (fun b => !(b.name == sha256_sum stream)) ++
         [{ name := sha256_sum stream, stat := some (now - age),
            content := stream }]) := rfl

theorem retrieve_blob_create_blob (ds : List Blob) (stream : List Nat)
    (now age : Int) :
    retrieve_blob (create_blob ds stream now age).2
      (create_blob ds stream now age).1 = .ok stream := by
  show retrieve_blob
      (ds.filter (fun b => !(b.name == sha256_sum stream)) ++
        [{ name := sha256_sum stream, stat := some (now - age),
           content := stream }])
      (sha256_sum stream) = .ok stream
  unfold retrieve_blob
  rw [validate_sha256_sha256_sum]
  have hleft : ∀ x ∈ ds.filter (fun b => !(b.name == sha256_sum stream)),
      (fun b => b.name == sha256_sum stream) x = false := by
    intro x hx
    have := (List.mem_filter.mp hx).2
    simpa using this
  rw [find?_append_left_none hleft]
  rw [List.find?_cons_of_pos _ (by simp)]

theorem upload_eq (db : Database) (ds : List Blob) (p v f : String)
    (stream : List Nat) (now age : Int) :
    upload db ds p v f stream now age =
      match create_file db p v f (sha256_sum stream) now age with
      | .ok db2 => (db2, (create_blob ds stream now age).2, .ok ())
      | .error e => (db, (create_blob ds stream now age).2, .error e) := rfl

theorem upload_ok_eq {db : Database} {ds : List Blob}
    {p v f : String} {stream : List Nat} {now age : Int}
    (hok : (upload db ds p v f stream now age).2.2 = .ok ()) :
    ∃ db', create_file db p v f (sha256_sum stream) now age = .ok db' ∧
      upload db ds p v f stream now age
        = (db', (create_blob ds stream now age).2, .ok ()) := by
  rw [upload_eq] at hok
  cases hcf : create_file db p v f (sha256_sum stream) now age with
  | error e =>
    rw [hcf] at hok
    exact Except.noConfusion hok
  | ok db2 =>
    refine ⟨db2, rfl, ?_⟩
    rw [upload_eq, hcf]

/-- C1: For every valid project name `P`, version name `V`, file name `F`
and byte sequence `bytes`, after `upload(P, V, F, bytes)` returns
successfully, `download(P, V, F)` returns a stream whose contents equal
`bytes`, and the identifier recorded for the file equals
`SHA-256(bytes)` (`sha256_sum`, the full SHA-256 implementation above).
Validity of the names is implied by the success of `upload`, which
validates them. -/
theorem upload_download_roundtrip (db : Database) (ds : List Blob)
    (p v f : String) (stream : List Nat) (now age : Int)
    (hok : (upload db ds p v f stream now age).2.2 = .ok ()) :
    download (upload db ds p v f stream now age).1
        (upload db ds p v f stream now age).2.1 p v f = .ok stream ∧
    retrieve_file_sha256 (upload db ds p v f stream now age).1 p v f
      = .ok (sha256_sum stream) := by
  obtain ⟨db', hcf, heq⟩ := upload_ok_eq hok
  rw [heq]
  have hret : retrieve_file_sha256 db' p v f = .ok (sha256_sum stream) :=
    create_file_retrieve hcf
  constructor
  · unfold download
    rw [hret]
    exact retrieve_blob_create_blob ds stream now age
  · exact hret


set_option maxRecDepth 10000 in
/-- C1 witness: a concrete successful upload of the bytes `b"foo"` to
`("ProjectX", "1.0", "fileA")` on empty substrates, and the resulting
round-trip. -/
theorem upload_download_roundtrip_witness :
    (upload emptyDb [] "ProjectX" "1.0" "fileA" [102, 111, 111] 1000 0).2.2
        = .ok () ∧
    (download (upload emptyDb [] "ProjectX" "1.0" "fileA" [102, 111, 111] 1000 0).1
        (upload emptyDb [] "ProjectX" "1.0" "fileA" [102, 111, 111] 1000 0).2.1
        "ProjectX" "1.0" "fileA" = .ok [102, 111, 111] ∧
     retrieve_file_sha256
        (upload emptyDb [] "ProjectX" "1.0" "fileA" [102, 111, 111] 1000 0).1
        "ProjectX" "1.0" "fileA" = .ok (sha256_sum [102, 111, 111])) :=
  ⟨by decide, upload_download_roundtrip emptyDb [] "ProjectX" "1.0" "fileA"
    [102, 111, 111] 1000 0 (by decide)⟩



/-- C5: if `create_file(P, V, F, H)` hits the unique `(version_id, name)`
constraint on the file insert, the call fails with
`'Unable to create file'` (the `duplicate-file` error) and the whole
transaction, including the project and version upserts, rolls back: the
committed index after the failed call is the index before it, and in
particular the previously recorded hash is still returned.  The
hypothesis provides an index on which `(P, V, F)` was created. -/
theorem create_file_duplicate_rolls_back (db db' : Database)
    (p v f sha sha2 : String) (now age now2 age2 : Int)
    (hok : create_file db p v f sha now age = .ok db')
    (hsha2 : validate_sha256 sha2 = .ok ()) :
    create_file db' p v f sha2 now2 age2 = .error "Unable to create file" ∧
    (create_file_state db' p v f sha2 now2 age2).1 = db' ∧
    retrieve_file_sha256 db' p v f = .ok sha := by
  have hdup := create_file_duplicate hok sha2 now2 age2 hsha2
  refine ⟨hdup, ?_, create_file_retrieve hok⟩
  unfold create_file_state
  rw [hdup]

/-- C5 witness: the concrete scenario of the claim —
`create_file("ProjectX", "1.0", "fileA", H1)` succeeds, the identical
second call fails with `duplicate-file`, and
`retrieve_file_sha256("ProjectX", "1.0", "fileA")` still returns `H1`. -/
theorem create_file_duplicate_rolls_back_witness :
    (create_file emptyDb "ProjectX" "1.0" "fileA" SHA256_TEST1 100 0
        = .ok dbProjectX ∧
     validate_sha256 SHA256_TEST1 = .ok ()) ∧
    (create_file dbProjectX "ProjectX" "1.0" "fileA" SHA256_TEST1 200 0
        = .error "Unable to create file" ∧
     (create_file_state dbProjectX "ProjectX" "1.0" "fileA" SHA256_TEST1 200 0).1
        = dbProjectX ∧
     retrieve_file_sha256 dbProjectX "ProjectX" "1.0" "fileA"
        = .ok SHA256_TEST1) :=
  ⟨⟨by decide, by decide⟩,
   create_file_duplicate_rolls_back emptyDb dbProjectX "ProjectX" "1.0" "fileA"
     SHA256_TEST1 SHA256_TEST1 100 0 200 0 (by decide) (by decide)⟩

/-- C4: `delete_obsolete_versions(age)` deletes exactly those versions
with `star = false` and `timestamp ≤ now - age`, and, by cascade, exactly
the files belonging to those versions; starred versions, younger
versions, their files, and all project rows are unchanged. -/
theorem delete_obsolete_versions_exact (db : Database) (now age : Int) :
    (delete_obsolete_versions db now age).projects = db.projects ∧
    (∀ vr : VersionRow, vr ∈ (delete_obsolete_versions db now age).versions ↔
      (vr ∈ db.versions ∧ ¬(vr.star = false ∧ vr.timestamp ≤ now - age))) ∧
    (∀ fr : FileRow, fr ∈ (delete_obsolete_versions db now age).files ↔
      (fr ∈ db.files ∧ ¬∃ vr ∈ db.versions,
        vr.id = fr.version_id ∧ vr.star = false ∧ vr.timestamp ≤ now - age)) := by
  refine ⟨rfl, ?_, ?_⟩
  · intro vr
    simp only [delete_obsolete_versions, List.mem_filter, Bool.not_eq_true',
      Bool.and_eq_false_iff, beq_iff_eq, decide_eq_false_iff_not,
      beq_eq_false_iff_ne, ne_eq]
    tauto
  · intro fr
    simp only [delete_obsolete_versions, List.mem_filter, Bool.not_eq_true',
      List.any_eq_false, List.mem_filter, Bool.and_eq_true, beq_iff_eq,
      decide_eq_true_eq, not_exists]
    constructor
    · rintro ⟨hm, hall⟩
      refine ⟨hm, ?_⟩
      rintro vr ⟨hvm, hid, hstar, hts⟩
      exact hall vr ⟨hvm, hstar, hts⟩ hid
    · rintro ⟨hm, hnone⟩
      refine ⟨hm, ?_⟩
      rintro vr ⟨hvm, hstar, hts⟩ hid
      exact hnone vr ⟨hvm, hid, hstar, hts⟩




theorem le_fdiv_60 {s : Int} (h : 60 ≤ s) : 1 ≤ (s + 30).fdiv 60 := by
  obtain ⟨n, hn⟩ := Int.eq_ofNat_of_zero_le (by omega : (0 : Int) ≤ s + 30)
  rw [hn]
  have h2 : 90 ≤ n := by omega
  have h4 : 1 ≤ n / 60 := by omega
  show (1 : Int) ≤ Int.fdiv (n : Int) ((60 : Nat) : Int)
  rw [← Int.ofNat_fdiv]
  exact_mod_cast h4

theorem le_fdiv_24 {s : Int} (h : 24 ≤ s) : 1 ≤ (s + 12).fdiv 24 := by
  obtain ⟨n, hn⟩ := Int.eq_ofNat_of_zero_le (by omega : (0 : Int) ≤ s + 12)
  rw [hn]
  have h2 : 36 ≤ n := by omega
  have h4 : 1 ≤ n / 24 := by omega
  show (1 : Int) ≤ Int.fdiv (n : Int) ((24 : Nat) : Int)
  rw [← Int.ofNat_fdiv]
  exact_mod_cast h4

theorem format_unit_eq_claim {c : Int} (h : 1 ≤ c) (u : String) :
    format_unit c u = claim_unit c u := by
  unfold format_unit claim_unit
  rcases eq_or_lt_of_le h with h1 | h1
  · rw [← h1]
    norm_num
  · rw [if_pos h1, if_neg (by omega)]

theorem format_expiry_eq_claim (s : Int) :
    format_expiry s = format_expiry_claim s := by
  unfold format_expiry format_expiry_claim format_approximate
  by_cases h0 : s ≤ 0
  · rw [if_pos h0, if_pos h0]
  · rw [if_neg h0, if_neg h0]
    by_cases h60 : 60 ≤ s
    · rw [if_pos (by omega : s ≥ 60), if_neg (by omega : ¬ s < 60)]
      by_cases hm60 : 60 ≤ (s + 30).fdiv 60
      · rw [if_pos (by omega : (s + 30).fdiv 60 ≥ 60),
          if_neg (by omega : ¬ (s + 30).fdiv 60 < 60)]
        by_cases hh24 : 24 ≤ ((s + 30).fdiv 60 + 30).fdiv 60
        · rw [if_pos (by omega : ((s + 30).fdiv 60 + 30).fdiv 60 ≥ 24),
            if_neg (by omega : ¬ ((s + 30).fdiv 60 + 30).fdiv 60 < 24)]
          exact congrArg _ (format_unit_eq_claim (le_fdiv_24 hh24) "day")
        · rw [if_neg (by omega : ¬ ((s + 30).fdiv 60 + 30).fdiv 60 ≥ 24),
            if_pos (by omega : ((s + 30).fdiv 60 + 30).fdiv 60 < 24)]
          exact congrArg _ (format_unit_eq_claim (le_fdiv_60 hm60) "hour")
      · rw [if_neg (by omega : ¬ (s + 30).fdiv 60 ≥ 60),
          if_pos (by omega : (s + 30).fdiv 60 < 60)]
        exact congrArg _ (format_unit_eq_claim (le_fdiv_60 h60) "minute")
    · rw [if_neg (by omega : ¬ s ≥ 60), if_pos (by omega : s < 60)]
      exact congrArg _ (format_unit_eq_claim (by omega) "second")

/-- C9: `format_expiry` is a pure total function on integers agreeing
everywhere with the claim's cascade (`format_expiry_claim`, singular
exactly when the final count is 1), and returns the pinned strings. -/
theorem format_expiry_correct :
    (∀ s : Int, format_expiry s = format_expiry_claim s) ∧
    format_expiry (-5) = "expired" ∧
    format_expiry 0 = "expired" ∧
    format_expiry 1 = "expires in 1 second" ∧
    format_expiry 60 = "expires in 1 minute" ∧
    format_expiry 72000 = "expires in 20 hours" ∧
    format_expiry 86400 = "expires in 1 day" :=
  ⟨format_expiry_eq_claim, by decide, by decide, by decide, by decide,
   by decide, by decide⟩




theorem delete_unreferenced_blobs_no_fault (ds : List Blob)
    (live : List String) (now : Int) (h : ∀ b ∈ ds, b.stat ≠ none) :
    delete_unreferenced_blobs ds live now
      = (ds.filter (blobKept now live), false) := by
  induction ds with
  | nil => rfl
  | cons b rest ih =>
    have hb := h b (List.mem_cons_self b rest)
    have ih' := ih fun x hx => h x (List.mem_cons_of_mem _ hx)
    cases hstat : b.stat with
    | none => exact absurd hstat hb
    | some mtime =>
      unfold delete_unreferenced_blobs
      rw [hstat]
      dsimp only
      by_cases h1 : mtime > now - 60
      · rw [if_pos h1, ih']
        have hk : blobKept now live b = true := by
          unfold blobKept
          rw [hstat]
          simp only [Bool.or_eq_true, decide_eq_true_eq]
          exact Or.inl h1
        rw [List.filter_cons_of_pos hk]
      · rw [if_neg h1]
        by_cases h2 : live.contains b.name
        · rw [if_pos h2, ih']
          have hk : blobKept now live b = true := by
            unfold blobKept
            rw [hstat]
            simp only [Bool.or_eq_true, decide_eq_true_eq]
            exact Or.inr h2
          rw [List.filter_cons_of_pos hk]
        · rw [if_neg h2, ih']
          have hk : blobKept now live b = false := by
            unfold blobKept
            rw [hstat]
            simp only [Bool.or_eq_false_iff, decide_eq_false_iff_not]
            exact ⟨h1, by simpa using h2⟩
          rw [List.filter_cons_of_neg (by simp [hk])]

theorem delete_unreferenced_blobs_no_fault_fst (ds : List Blob)
    (live : List String) (now : Int) (h : ∀ b ∈ ds, b.stat ≠ none) :
    (delete_unreferenced_blobs ds live now).1 = ds.filter (blobKept now live) := by
  rw [delete_unreferenced_blobs_no_fault ds live now h]

theorem blobKept_iff {b : Blob} {now : Int} {live : List String}
    (hb : b.stat ≠ none) :
    blobKept now live b = true ↔
      ((∃ m, b.stat = some m ∧ m > now - 60) ∨ b.name ∈ live) := by
  cases hstat : b.stat with
  | none => exact absurd hstat hb
  | some m =>
    unfold blobKept
    rw [hstat]
    simp only [Bool.or_eq_true, decide_eq_true_eq, List.contains_iff_exists_mem_beq,
      beq_iff_eq]
    constructor
    · rintro (h1 | ⟨x, hx, rfl⟩)
      · exact Or.inl ⟨m, rfl, h1⟩
      · exact Or.inr hx
    · rintro (⟨m2, hm2, h1⟩ | h1)
      · cases hm2
        exact Or.inl h1
      · exact Or.inr ⟨b.name, h1, rfl⟩



/-- C3: after `cleanup()` completes with no concurrent writers (and, as
the claim's scan requires, no entry vanishing mid-scan: every entry
stats), every blob remaining in the datastore either has an mtime newer
than `now - 60` or its name appears in `retrieve_sha256s()` of the
cleaned index; and an entry of the input survives exactly when it is
within the grace window or referenced — i.e. `delete_unreferenced_blobs`
unlinks exactly the old unreferenced entries, against the live set taken
after metadata deletion. -/
theorem cleanup_blob_invariant (db : Database) (ds : List Blob)
    (obsolete_age now : Int)
    (hstat : ∀ b ∈ ds, b.stat ≠ none) :
    (∀ b ∈ (cleanup db ds obsolete_age now).2.1,
      (∃ m, b.stat = some m ∧ m > now - 60) ∨
      b.name ∈ retrieve_sha256s (cleanup db ds obsolete_age now).1) ∧
    (∀ b ∈ ds, (b ∈ (cleanup db ds obsolete_age now).2.1 ↔
      ((∃ m, b.stat = some m ∧ m > now - 60) ∨
       b.name ∈ retrieve_sha256s (cleanup db ds obsolete_age now).1))) := by
  have hfst : (cleanup db ds obsolete_age now).1
      = delete_obsolete_versions db now obsolete_age := rfl
  have hsnd : (cleanup db ds obsolete_age now).2.1
      = (delete_unreferenced_blobs ds
          (retrieve_sha256s (delete_obsolete_versions db now obsolete_age))
          now).1 := rfl
  rw [hfst, hsnd, delete_unreferenced_blobs_no_fault_fst _ _ _ hstat]
  constructor
  · intro b hbmem
    have hm := List.mem_filter.mp hbmem
    exact (blobKept_iff (hstat b hm.1)).mp hm.2
  · intro b hbmem
    rw [List.mem_filter]
    constructor
    · rintro ⟨_, hk⟩
      exact (blobKept_iff (hstat b hbmem)).mp hk
    · intro hk
      exact ⟨hbmem, (blobKept_iff (hstat b hbmem)).mpr hk⟩

/-- C3 witness: a cleanup over three blobs — an old referenced one, an
old unreferenced one, and a fresh unreferenced one. -/
theorem cleanup_blob_invariant_witness :
    (∀ b ∈ ([⟨SHA256_TEST1, some 800, [1]⟩, ⟨sha256_sum [], some 800, []⟩,
        ⟨sha256_sum [2], some 990, [2]⟩] : List Blob), b.stat ≠ none) ∧
    ((∀ b ∈ (cleanup dbProjectX [⟨SHA256_TEST1, some 800, [1]⟩,
          ⟨sha256_sum [], some 800, []⟩,
          ⟨sha256_sum [2], some 990, [2]⟩] 500 1000).2.1,
        (∃ m, b.stat = some m ∧ m > 1000 - 60) ∨
        b.name ∈ retrieve_sha256s (cleanup dbProjectX
          [⟨SHA256_TEST1, some 800, [1]⟩, ⟨sha256_sum [], some 800, []⟩,
           ⟨sha256_sum [2], some 990, [2]⟩] 500 1000).1) ∧
     (∀ b ∈ ([⟨SHA256_TEST1, some 800, [1]⟩, ⟨sha256_sum [], some 800, []⟩,
          ⟨sha256_sum [2], some 990, [2]⟩] : List Blob),
        (b ∈ (cleanup dbProjectX [⟨SHA256_TEST1, some 800, [1]⟩,
            ⟨sha256_sum [], some 800, []⟩,
            ⟨sha256_sum [2], some 990, [2]⟩] 500 1000).2.1 ↔
          ((∃ m, b.stat = some m ∧ m > 1000 - 60) ∨
           b.name ∈ retrieve_sha256s (cleanup dbProjectX
            [⟨SHA256_TEST1, some 800, [1]⟩, ⟨sha256_sum [], some 800, []⟩,
             ⟨sha256_sum [2], some 990, [2]⟩] 500 1000).1)))) :=
  ⟨by decide, cleanup_blob_invariant dbProjectX
    [⟨SHA256_TEST1, some 800, [1]⟩, ⟨sha256_sum [], some 800, []⟩,
     ⟨sha256_sum [2], some 990, [2]⟩] 500 1000 (by decide)⟩



/-- C8 (amended): an error on an individual directory entry (a failing
`os.stat`) aborts the scan: entries before the failing one are processed
normally, but the failing entry and all entries after it are left
unexamined and the error propagates out of `delete_unreferenced_blobs`
(the loop has no per-entry exception handling). -/
theorem delete_unreferenced_blobs_aborts (good : List Blob) (bad : Blob)
    (rest : List Blob) (live : List String) (now : Int)
    (hgood : ∀ x ∈ good, x.stat ≠ none) (hbad : bad.stat = none) :
    delete_unreferenced_blobs (good ++ bad :: rest) live now
      = (good.filter (blobKept now live) ++ bad :: rest, true) := by
  induction good with
  | nil =>
    rw [List.nil_append]
    unfold delete_unreferenced_blobs
    dsimp only
    rw [hbad]
    rfl
  | cons a good' ih =>
    have ha := hgood a (List.mem_cons_self a good')
    have ih' := ih fun x hx => hgood x (List.mem_cons_of_mem _ hx)
    cases hstat : a.stat with
    | none => exact absurd hstat ha
    | some mtime =>
      rw [List.cons_append]
      unfold delete_unreferenced_blobs
      rw [hstat]
      dsimp only
      by_cases h1 : mtime > now - 60
      · rw [if_pos h1, ih']
        have hk : blobKept now live a = true := by
          unfold blobKept
          rw [hstat]
          simp only [Bool.or_eq_true, decide_eq_true_eq]
          exact Or.inl h1
        rw [List.filter_cons_of_pos hk, List.cons_append]
      · rw [if_neg h1]
        by_cases h2 : live.contains a.name
        · rw [if_pos h2, ih']
          have hk : blobKept now live a = true := by
            unfold blobKept
            rw [hstat]
            simp only [Bool.or_eq_true, decide_eq_true_eq]
            exact Or.inr h2
          rw [List.filter_cons_of_pos hk, List.cons_append]
        · rw [if_neg h2, ih']
          have hk : blobKept now live a = false := by
            unfold blobKept
            rw [hstat]
            simp only [Bool.or_eq_false_iff, decide_eq_false_iff_not]
            exact ⟨h1, by simpa using h2⟩
          rw [List.filter_cons_of_neg (by simp [hk])]

/-- C8 counterexample: with a vanished entry first in the directory, the
scan aborts and the stale unreferenced entry after it survives, although
the same entry alone would have been unlinked — refuting "the remaining
entries are still examined and the call completes without propagating
the per-entry error". -/
theorem gc_scan_abort_counterexample :
    delete_unreferenced_blobs
        [⟨"vanished", none, []⟩, ⟨"stale", some 0, []⟩] [] 1000
      = ([⟨"vanished", none, []⟩, ⟨"stale", some 0, []⟩], true) ∧
    delete_unreferenced_blobs [⟨"stale", some 0, []⟩] [] 1000 = ([], false) := by
  decide

/-- C8 witness for the amended theorem. -/
theorem delete_unreferenced_blobs_aborts_witness :
    ((∀ x ∈ ([⟨"stale", some 0, [1]⟩] : List Blob), x.stat ≠ none) ∧
     (⟨"vanished", none, []⟩ : Blob).stat = none) ∧
    delete_unreferenced_blobs
        ([⟨"stale", some 0, [1]⟩] ++ ⟨"vanished", none, []⟩ ::
          [⟨"stale2", some 5, [2]⟩]) [] 1000
      = (([⟨"stale", some 0, [1]⟩] : List Blob).filter (blobKept 1000 []) ++
          ⟨"vanished", none, []⟩ :: [⟨"stale2", some 5, [2]⟩], true) :=
  ⟨⟨by decide, by decide⟩,
   delete_unreferenced_blobs_aborts [⟨"stale", some 0, [1]⟩]
     ⟨"vanished", none, []⟩ [⟨"stale2", some 5, [2]⟩] [] 1000
     (by decide) (by decide)⟩



theorem dash_mem_temp_name (sha suffix : String) :
    '-' ∈ (sha ++ "-" ++ suffix).data := by
  rw [String.data_append, String.data_append, List.mem_append, List.mem_append]
  exact Or.inl (Or.inr (by decide))

/-- C10: a temporary file left by an interrupted `create_blob` (named
`<sha256>-<random-hex-suffix>`) is deleted by any later
`delete_unreferenced_blobs` call (here: a full `cleanup`) once its mtime
is older than the 60-second grace window: the fault-free scan visits
every entry, and a name containing `'-'` can never equal a hash of the
live set, since every recorded hash passes the `Hex64` validator. -/
theorem temp_blob_collected (db : Database) (ds : List Blob)
    (obsolete_age now m : Int) (sha suffix : String) (content : List Nat)
    (hstat : ∀ b ∈ ds, b.stat ≠ none)
    (hvalid : ∀ fr ∈ db.files, sha256Search fr.sha256 = true)
    (hm : m ≤ now - 60) :
    ({ name := sha ++ "-" ++ suffix, stat := some m, content := content } : Blob)
      ∉ (cleanup db ds obsolete_age now).2.1 := by
  intro hmem
  have hsnd : (cleanup db ds obsolete_age now).2.1
      = (delete_unreferenced_blobs ds
          (retrieve_sha256s (delete_obsolete_versions db now obsolete_age))
          now).1 := rfl
  rw [hsnd, delete_unreferenced_blobs_no_fault_fst _ _ _ hstat] at hmem
  have hkept := (List.mem_filter.mp hmem).2
  have hkept2 : (decide (m > now - 60) ||
      (retrieve_sha256s (delete_obsolete_versions db now obsolete_age)).contains
        (sha ++ "-" ++ suffix)) = true := hkept
  rcases Bool.or_eq_true_iff.mp hkept2 with hk | hk
  · rw [decide_eq_true_eq] at hk
    omega
  · obtain ⟨x, hx, hbeq⟩ := List.contains_iff_exists_mem_beq.mp hk
    rw [beq_iff_eq] at hbeq
    subst hbeq
    unfold retrieve_sha256s at hx
    rw [List.mem_dedup, List.mem_map] at hx
    obtain ⟨fr, hfr, hname⟩ := hx
    have hfr2 : fr ∈ db.files := by
      have hfeq : (delete_obsolete_versions db now obsolete_age).files
          = db.files.filter (fun fr =>
              !((db.versions.filter (fun vr => vr.star == false &&
                  decide (vr.timestamp ≤ now - obsolete_age))).any
                (fun vr => vr.id == fr.version_id))) := rfl
      rw [hfeq] at hfr
      exact (List.mem_filter.mp hfr).1
    have hnodash := no_dash_of_sha256Search (hvalid fr hfr2)
    rw [hname] at hnodash
    exact hnodash (dash_mem_temp_name sha suffix)

/-- C10 witness: an orphaned temp file next to a referenced blob's hash
is collected. -/
theorem temp_blob_collected_witness :
    ((∀ b ∈ ([⟨SHA256_TEST1 ++ "-" ++ "4f2a", some 100, [7]⟩] : List Blob),
        b.stat ≠ none) ∧
     (∀ fr ∈ dbProjectX.files, sha256Search fr.sha256 = true) ∧
     (100 : Int) ≤ 1000 - 60) ∧
    ({ name := SHA256_TEST1 ++ "-" ++ "4f2a", stat := some 100,
       content := [7] } : Blob)
      ∉ (cleanup dbProjectX
          [⟨SHA256_TEST1 ++ "-" ++ "4f2a", some 100, [7]⟩] 500 1000).2.1 :=
  ⟨⟨by decide, by decide, by decide⟩,
   temp_blob_collected dbProjectX
     [⟨SHA256_TEST1 ++ "-" ++ "4f2a", some 100, [7]⟩] 500 1000 100
     SHA256_TEST1 "4f2a" [7] (by decide) (by decide) (by decide)⟩




/-- C2 (amended): for every string that equals `.` or `..`, or contains a
character outside `[0-9a-zA-Z_.-]` at a position other than a single
trailing newline, every validator-gated entry point fails with the
`invalid-name` error and the metadata index is left unchanged; the blob
store too is unchanged for the database entry points, but a rejected
`Engine.upload` has already written the blob before `create_file`
validates the names, so its datastore is the one `create_blob` produced,
not the original. -/
theorem invalid_name_rejected (s : String) (hs : claimInvalidName s) :
    validate_name s = .error "Invalid name" ∧
    (∀ db v f sha now age,
      create_file db s v f sha now age = .error "Invalid name") ∧
    (∀ db v f, retrieve_file_sha256 db s v f = .error "Invalid name") ∧
    (∀ db, retrieve_versions db s = .error "Invalid name") ∧
    (∀ db v, retrieve_files db s v = .error "Invalid name") ∧
    (∀ db v star, update_star db s v star = .error "Invalid name") ∧
    (∀ db ds v f, download db ds s v f = .error "Invalid name") ∧
    (∀ db ds v f stream now age,
      (upload db ds s v f stream now age).1 = db ∧
      (upload db ds s v f stream now age).2.2 = .error "Invalid name" ∧
      (upload db ds s v f stream now age).2.1
        = (create_blob ds stream now age).2) := by
  have hval : validate_name s = .error "Invalid name" := by
    unfold validate_name
    by_cases hdot : s = "." ∨ s = ".."
    · rw [if_pos (by simpa using hdot)]
    · rw [if_neg (by simpa using hdot)]
      have hns : nameSearch s = false := by
        rcases hs with h | h | ⟨c, hc, hbad⟩
        · exact absurd (Or.inl h) hdot
        · exact absurd (Or.inr h) hdot
        · unfold nameSearch
          rw [Bool.and_eq_false_iff]
          right
          rw [List.all_eq_false]
          exact ⟨c, hc, by simp [hbad]⟩
      rw [hns]
      rfl
  have hcf : ∀ db v f sha now age,
      create_file db s v f sha now age = .error "Invalid name" := by
    intro db v f sha now age
    unfold create_file
    rw [hval]
  have hret : ∀ db v f,
      retrieve_file_sha256 db s v f = .error "Invalid name" := by
    intro db v f
    unfold retrieve_file_sha256
    rw [hval]
  refine ⟨hval, hcf, hret, ?_, ?_, ?_, ?_, ?_⟩
  · intro db
    unfold retrieve_versions
    rw [hval]
  · intro db v
    unfold retrieve_files
    rw [hval]
  · intro db v star
    unfold update_star
    rw [hval]
  · intro db ds v f
    unfold download
    rw [hret db v f]
  · intro db ds v f stream now age
    rw [upload_eq, hcf db v f (sha256_sum stream) now age]
    exact ⟨rfl, rfl, rfl⟩

/-- C2 witness for the amended theorem, at the invalid name
`"bad*name"`. -/
theorem invalid_name_rejected_witness :
    claimInvalidName "bad*name" ∧
    (validate_name "bad*name" = .error "Invalid name" ∧
     (∀ db v f sha now age,
       create_file db "bad*name" v f sha now age = .error "Invalid name") ∧
     (∀ db v f,
       retrieve_file_sha256 db "bad*name" v f = .error "Invalid name") ∧
     (∀ db, retrieve_versions db "bad*name" = .error "Invalid name") ∧
     (∀ db v, retrieve_files db "bad*name" v = .error "Invalid name") ∧
     (∀ db v star, update_star db "bad*name" v star = .error "Invalid name") ∧
     (∀ db ds v f, download db ds "bad*name" v f = .error "Invalid name") ∧
     (∀ db ds v f stream now age,
       (upload db ds "bad*name" v f stream now age).1 = db ∧
       (upload db ds "bad*name" v f stream now age).2.2
          = .error "Invalid name" ∧
       (upload db ds "bad*name" v f stream now age).2.1
          = (create_blob ds stream now age).2)) :=
  ⟨by decide, invalid_name_rejected "bad*name" (by decide)⟩



set_option maxRecDepth 10000 in
/-- C2 counterexample: the claim as stated is false twice over.
`"ProjectX\n"` contains `'\n'`, outside `[0-9a-zA-Z_.-]`, yet
`validate_name` accepts it (Python `re.search` lets the `$` anchor match
before a trailing newline) and `create_file` commits rows for it; and a
genuinely rejected `upload` with the invalid name `"bad*name"` leaves the
blob store changed — the blob is written before the name is validated. -/
theorem validator_gate_counterexample :
    (validate_name "ProjectX\n" = .ok () ∧
     '\n' ∈ "ProjectX\n".data ∧ isNameChar '\n' = false ∧
     create_file emptyDb "ProjectX\n" "1.0" "fileA" SHA256_TEST1 100 0
       = .ok ⟨[⟨1, "ProjectX\n"⟩], [⟨1, 1, "1.0", 100, false⟩],
              [⟨1, 1, "fileA", SHA256_TEST1⟩], 2, 2, 2⟩) ∧
    ((upload emptyDb [] "bad*name" "1.0" "fileA" [] 1000 0).2.2
        = .error "Invalid name" ∧
     (upload emptyDb [] "bad*name" "1.0" "fileA" [] 1000 0).2.1
        = [⟨sha256_sum [], some 1000, []⟩]) := by
  exact ⟨⟨by decide, by decide, by decide, by decide⟩, ⟨by decide, by decide⟩⟩

/-- C6 (code bug): the claim matches the decorator's own comment
("closes it afterwards, even if the method raised an exception"), but the
`contextlib` generator in `database_context_manager` has no `try/finally`,
so when the wrapped method raises, `database.close()` — the statement
after the `yield` — never runs.  Concretely: `retrieve_file_sha256` on an
empty index raises `'File not found'` and the connection is not closed. -/
theorem connection_not_closed_on_error :
    retrieve_file_sha256 emptyDb "ProjectX" "1.0" "fileA"
      = .error "File not found" ∧
    (database_context_manager_run
      (retrieve_file_sha256 emptyDb "ProjectX" "1.0" "fileA")).2 = false := by
  exact ⟨by decide, by decide⟩

/-- C7: when `download` finds the file row but the referenced blob is
absent from the datastore, the raised error is the datastore's
`'Blob not found'` `DatastoreException`, which the HTTP layer's generic
handler surfaces as status 500 (internal error); status 404 is produced
only by URL routing, never by this failure. -/
theorem download_missing_blob_internal (db : Database) (ds : List Blob)
    (p v f sha : String)
    (hfile : retrieve_file_sha256 db p v f = .ok sha)
    (hsha : sha256Search sha = true)
    (habsent : ∀ b ∈ ds, ¬(b.name = sha)) :
    download db ds p v f = .error "Blob not found" ∧
    download_http_status db ds p v f = 500 ∧
    download_http_status db ds p v f ≠ 404 := by
  have hdl : download db ds p v f = .error "Blob not found" := by
    unfold download
    rw [hfile]
    unfold retrieve_blob validate_sha256
    dsimp only
    rw [if_pos hsha]
    dsimp only
    have hfind : ds.find? (fun b => b.name == sha) = none :=
      List.find?_eq_none.mpr (fun x hx => by simpa using habsent x hx)
    rw [hfind]
  refine ⟨hdl, ?_, ?_⟩
  · unfold download_http_status
    rw [hdl]
  · unfold download_http_status
    rw [hdl]
    decide

/-- C7 witness: an index holding a file row whose blob is missing from an
empty datastore. -/
theorem download_missing_blob_internal_witness :
    (retrieve_file_sha256 dbProjectX "ProjectX" "1.0" "fileA"
        = .ok SHA256_TEST1 ∧
     sha256Search SHA256_TEST1 = true ∧
     (∀ b ∈ ([] : List Blob), ¬(b.name = SHA256_TEST1))) ∧
    (download dbProjectX [] "ProjectX" "1.0" "fileA"
        = .error "Blob not found" ∧
     download_http_status dbProjectX [] "ProjectX" "1.0" "fileA" = 500 ∧
     download_http_status dbProjectX [] "ProjectX" "1.0" "fileA" ≠ 404) :=
  ⟨⟨by decide, by decide, by decide⟩,
   download_missing_blob_internal dbProjectX [] "ProjectX" "1.0" "fileA"
     SHA256_TEST1 (by decide) (by decide) (by decide)⟩


end Tempstore
